import Mathlib

/-!
# The RPD level exporter (`src/plugins/rpd/rpdplugin.cpp`)

A shallow embedding of `packMapData` and `RpdMapFormat::write`, and the
properties of the exported JSON document.

* The tile-map model (`Map`, `Layer`, `Cell`, `Tileset`) is the read-only
  interface the exporter uses: layer name, width, height, `cellAt(i, j).tileId()`
  and `usedTilesets()`.  The exporter reaches the cells through
  `layer->asTileLayer()`; the layers of the model are tile layers (for another
  kind of layer that call yields a null pointer, and C++ gives the code no
  behaviour).
* `QJsonValue`, `QJsonArray` and `QJsonObject` are modelled by `JsonValue`,
  `JsonArray` and `JsonObject`.
* The sentinel tile ids (`enum TileId`, declared in `rpdplugin.h`) are a
  parameter of the model.
-/

namespace Rpd

/-! ## JSON values -/

/-- The part of `QJsonValue` the exporter builds: numbers made from `int`,
booleans, strings and arrays. -/
inductive JsonValue where
  | int (n : Int)
  | bool (b : Bool)
  | str (s : String)
  | arr (items : List JsonValue)

namespace JsonValue

mutual
/-- Equality of JSON values is decidable. -/
def decEq : (a b : JsonValue) → Decidable (a = b)
  | int m, int n =>
    if h : m = n then isTrue (by rw [h]) else isFalse (fun e => h (by cases e; rfl))
  | bool m, bool n =>
    if h : m = n then isTrue (by rw [h]) else isFalse (fun e => h (by cases e; rfl))
  | str m, str n =>
    if h : m = n then isTrue (by rw [h]) else isFalse (fun e => h (by cases e; rfl))
  | arr xs, arr ys =>
    match decEqList xs ys with
    | isTrue h => isTrue (by rw [h])
    | isFalse h => isFalse (fun e => h (by cases e; rfl))
  | int _, bool _ => isFalse (by intro e; cases e)
  | int _, str _ => isFalse (by intro e; cases e)
  | int _, arr _ => isFalse (by intro e; cases e)
  | bool _, int _ => isFalse (by intro e; cases e)
  | bool _, str _ => isFalse (by intro e; cases e)
  | bool _, arr _ => isFalse (by intro e; cases e)
  | str _, int _ => isFalse (by intro e; cases e)
  | str _, bool _ => isFalse (by intro e; cases e)
  | str _, arr _ => isFalse (by intro e; cases e)
  | arr _, int _ => isFalse (by intro e; cases e)
  | arr _, bool _ => isFalse (by intro e; cases e)
  | arr _, str _ => isFalse (by intro e; cases e)
/-- Equality of lists of JSON values is decidable. -/
def decEqList : (a b : List JsonValue) → Decidable (a = b)
  | [], [] => isTrue rfl
  | [], _ :: _ => isFalse (by intro e; cases e)
  | _ :: _, [] => isFalse (by intro e; cases e)
  | x :: xs, y :: ys =>
    match decEq x y, decEqList xs ys with
    | isTrue h, isTrue h2 => isTrue (by rw [h, h2])
    | isFalse h, _ => isFalse (fun e => h (by cases e; rfl))
    | _, isFalse h => isFalse (fun e => h (by cases e; rfl))
end

instance : DecidableEq JsonValue := decEq

end JsonValue

open JsonValue

/-- A `QJsonArray`: the sequence of its values. -/
abbrev JsonArray := List JsonValue

/-- The call `QJsonArray::append`: the value goes to the end. -/
def JsonArray.append (a : JsonArray) (v : JsonValue) : JsonArray := a ++ [v]

/-- A `QJsonObject`: its key/value entries, at most one per key when built
with `insert` from the empty object. -/
abbrev JsonObject := List (String × JsonValue)

namespace JsonObject

/-- The value stored under `key`, if any (`QJsonObject::value`). -/
def value (o : JsonObject) (key : String) : Option JsonValue :=
  match o with
  | [] => none
  | (k, v) :: rest => if k = key then some v else value rest key

/-- The call `QJsonObject::contains`. -/
def contains (o : JsonObject) (key : String) : Bool := (o.value key).isSome

/-- The call `QJsonObject::insert`: a value already stored under the key is
replaced, otherwise a new entry is added. -/
def insert (o : JsonObject) (key : String) (v : JsonValue) : JsonObject :=
  match o with
  | [] => [(key, v)]
  | (k, w) :: rest => if k = key then (k, v) :: rest else (k, w) :: insert rest key v

end JsonObject

/-! ## The tile-map model read by the exporter -/

/-- A grid cell; `tileId` is what `Cell::tileId()` returns. -/
structure Cell where
  tileId : Int

/-- A tileset, with the name returned by `Tileset::name()`. -/
structure Tileset where
  name : String

/-- A tile layer as the exporter reads it.  `cellAt i j` is
`asTileLayer()->cellAt(i, j)`; `usedTilesets` lists the elements of the set
returned by `asTileLayer()->usedTilesets()` in iteration order, so that its
length is `size()` and its head is `*begin()`. -/
structure Layer where
  name : String
  width : Int
  height : Int
  cellAt : Int → Int → Cell
  usedTilesets : List Tileset

/-- A map: its layers in order (`Map::layers()`). -/
structure Map where
  layers : List Layer

/-- The sentinel tile ids of `enum TileId` (`rpdplugin.h`), the case labels of
the `switch` in `write`. -/
structure TileId where
  ENTRANCE : Int
  EXIT : Int
  LOCKED_EXIT : Int
  UNLOCKED_EXIT : Int

/-- The values `for (int i = 0; i < n; ++i)` runs through: `0, 1, ..., n - 1`,
none when `n <= 0`. -/
def loopRange (n : Int) : List Int := (List.range n.toNat).map Int.ofNat

/-! ## `packMapData` -/

/-- The function `packMapData` (lines 50-59): `j` runs over the rows in the
outer loop, `i` over the columns in the inner loop, and the tile id of
`cellAt(i, j)` is appended. -/
def packMapData (layer : Layer) : JsonArray :=
  (loopRange layer.height).foldl (fun map j =>
    (loopRange layer.width).foldl (fun map i =>
      JsonArray.append map (int (layer.cellAt i j).tileId)) map) []

/-! ## The marker loop of `write` -/

/-- The body of the marker loop (lines 85-102): the `switch` on the tile id of
`cellAt(i, j)`, acting on the arrays `entrance` and `multiexit`. -/
def scanCell (ids : TileId) (layer : Layer) (i j : Int)
    (acc : JsonArray × JsonArray) : JsonArray × JsonArray :=
  let tileId := (layer.cellAt i j).tileId
  if tileId = ids.ENTRANCE then
    ((acc.1.append (int i)).append (int j), acc.2)
  else if tileId = ids.EXIT ∨ tileId = ids.LOCKED_EXIT ∨ tileId = ids.UNLOCKED_EXIT then
    (acc.1, acc.2.append (arr ((JsonArray.append [] (int i)).append (int j))))
  else
    acc

/-- The marker loop (lines 83-104) run on empty `entrance` and `multiexit`
arrays: `i` runs over the columns in the outer loop, `j` over the rows in the
inner loop.  The result is the pair `(entrance, multiexit)`. -/
def scanMarkers (ids : TileId) (layer : Layer) : JsonArray × JsonArray :=
  (loopRange layer.width).foldl (fun acc i =>
    (loopRange layer.height).foldl (fun acc j => scanCell ids layer i j acc) acc) ([], [])

/-! ## Assembling the document -/

/-- The translation function `tr` of Qt, with no translation installed for the
messages of the plug-in: the source text is returned. -/
def tr (s : String) : String := s

/-- The body of the loop over the layers (lines 73-131): the three blocks for
the names "logic", "base" and "deco", in this order.  `Except.error` is the
early `return false` with the message stored in `mError`. -/
def writeLayer (ids : TileId) (mapJson : JsonObject) (layer : Layer) :
    Except String JsonObject :=
  let mapJson :=
    if layer.name = "logic" then
      let mapJson := mapJson.insert "width" (int layer.width)
      let mapJson := mapJson.insert "height" (int layer.height)
      let mapJson := mapJson.insert "map" (arr (packMapData layer))
      let markers := scanMarkers ids layer
      let mapJson := mapJson.insert "entrance" (arr markers.1)
      mapJson.insert "multiexit" (arr markers.2)
    else mapJson
  let mapJson :=
    if layer.name = "base" then mapJson.insert "baseTileVar" (arr (packMapData layer))
    else mapJson
  if layer.name = "deco" then
    let mapJson := mapJson.insert "decoTileVar" (arr (packMapData layer))
    let mapJson := mapJson.insert "customTiles" (bool true)
    let tilesets := layer.usedTilesets
    if h0 : tilesets.length = 0 then
      .error (tr "You have deco layer please fill it")
    else if tilesets.length > 1 then
      .error (tr "Only one tileset per layer supported")
    else
      let first := tilesets.head (List.ne_nil_of_length_pos (Nat.pos_of_ne_zero h0))
      .ok (mapJson.insert "tiles" (str (first.name ++ ".png")))
  else
    .ok mapJson

/-- The loop over `map->layers()` (line 72), from a given `mapJson`; the first
layer that fails ends the loop. -/
def writeLayers (ids : TileId) (mapJson : JsonObject) : List Layer → Except String JsonObject
  | [] => .ok mapJson
  | layer :: rest =>
    match writeLayer ids mapJson layer with
    | .error e => .error e
    | .ok mapJson => writeLayers ids mapJson rest

/-- The document `mapJson` as `write` assembles it (lines 70-138): the loop
over the layers from the empty object, then the fallback for "tiles" and the
fixed "water". -/
def assemble (ids : TileId) (map : Map) : Except String JsonObject :=
  match writeLayers ids [] map.layers with
  | .error e => .error e
  | .ok mapJson =>
    let mapJson :=
      if !mapJson.contains "tiles" then mapJson.insert "tiles" (str "tiles0_x.png")
      else mapJson
    .ok (mapJson.insert "water" (str "water0.png"))

/-! ## The save file and `write` -/

/-- Modelled from the spec: `Tiled::SaveFile` (`savefile.h` is not among the
sources), the "atomic scoped write" of the spec: output is staged apart from
the destination, and only a successful commit replaces the destination with
the staged content.  `destination` is the content of the file under
`fileName` (`none`: no such file), `staged` the staged content (`none`: not
open), `error` the device error with its `errorString()` (`none`: `NoError`),
`commitAttempts` counts the calls of `commit`, `committed` tells whether one
of them succeeded. -/
structure SaveFile where
  destination : Option String
  staged : Option String
  error : Option String
  commitAttempts : Nat
  committed : Bool
  deriving DecidableEq

/-- What the environment decides during one call of `write`: whether the save
file opens, the device error left by writing and flushing the text, if any,
and the error that makes `commit` fail, if any. -/
structure Device where
  opens : Bool
  writeError : Option String
  commitError : Option String

namespace SaveFile

/-- Modelled from the spec: `SaveFile file(fileName)`, nothing staged yet. -/
def create (onDisk : Option String) : SaveFile :=
  { destination := onDisk, staged := none, error := none, commitAttempts := 0,
    committed := false }

/-- Modelled from the spec: `open` starts an empty staging area when the
device opens, and reports whether it did. -/
def openDevice (f : SaveFile) (dev : Device) : Bool × SaveFile :=
  if dev.opens then (true, { f with staged := some "" }) else (false, f)

/-- Modelled from the spec: text sent to `file.device()` and flushed goes to
the staging area ("write to temp, flush"); a device error is recorded. -/
def writeText (f : SaveFile) (dev : Device) (text : String) : SaveFile :=
  { f with staged := f.staged.map (fun s => s ++ text), error := dev.writeError }

/-- Modelled from the spec: `commit` replaces the destination with the staged
content when it succeeds ("commit/rename"); when it fails it records the error
and leaves the destination alone. -/
def commit (f : SaveFile) (dev : Device) : Bool × SaveFile :=
  match dev.commitError with
  | none =>
    (true, { f with destination := f.staged, commitAttempts := f.commitAttempts + 1,
                    committed := true })
  | some e => (false, { f with error := some e, commitAttempts := f.commitAttempts + 1 })

/-- Modelled from the spec: `errorString()` of the save file. -/
def errorString (f : SaveFile) : String := f.error.getD ""

end SaveFile

/-- The state of an `RpdMapFormat` object that `write` touches: `mError`. -/
structure RpdMapFormat where
  mError : String

/-- The method `RpdMapFormat::errorString` (lines 177-180). -/
def RpdMapFormat.errorString (self : RpdMapFormat) : String := self.mError

/-- The method `RpdMapFormat::write` (lines 61-170).  `stringify` stands for
`JsonWriter::stringify` on the assembled document (`qjsonparser/json.h` is
not among the sources): the JSON text, or the writer's `errorString()`.
`onDisk` is the content of the file under `fileName` before the call.  The
result is the returned boolean, the object with its `mError`, and the save
file as the call leaves it. -/
def RpdMapFormat.write (self : RpdMapFormat) (ids : TileId)
    (stringify : JsonObject → Except String String) (dev : Device)
    (map : Map) (onDisk : Option String) : Bool × RpdMapFormat × SaveFile :=
  let file := SaveFile.create onDisk
  match file.openDevice dev with
  | (false, file) => (false, { self with mError := tr "Could not open file for writing." }, file)
  | (true, file) =>
    match assemble ids map with
    | .error e => (false, { self with mError := e }, file)
    | .ok mapJson =>
      match stringify mapJson with
      | .error e => (false, { self with mError := e }, file)
      | .ok result =>
        let file := file.writeText dev result
        if file.error ≠ none then
          (false, { self with mError := tr "Error while writing file:\n" ++ file.errorString }, file)
        else
          match file.commit dev with
          | (false, file) => (false, { self with mError := file.errorString }, file)
          | (true, file) => (true, self, file)

/-! ## Vocabulary of the properties -/

/-- The grid positions `(i, j)` of a layer in the order in which the marker
loop visits them: column after column, each from top to bottom. -/
def scanOrder (layer : Layer) : List (Nat × Nat) :=
  (List.range layer.width.toNat).flatMap (fun i =>
    (List.range layer.height.toNat).map (fun j => (i, j)))

/-- The cell at a position holds the ENTRANCE sentinel. -/
def isEntrance (ids : TileId) (layer : Layer) (p : Nat × Nat) : Bool :=
  decide ((layer.cellAt p.1 p.2).tileId = ids.ENTRANCE)

/-- The cell at a position holds one of EXIT, LOCKED_EXIT, UNLOCKED_EXIT. -/
def isExit (ids : TileId) (layer : Layer) (p : Nat × Nat) : Bool :=
  decide ((layer.cellAt p.1 p.2).tileId = ids.EXIT ∨
    (layer.cellAt p.1 p.2).tileId = ids.LOCKED_EXIT ∨
    (layer.cellAt p.1 p.2).tileId = ids.UNLOCKED_EXIT)

/-- The two JSON numbers of a position. -/
def coords (p : Nat × Nat) : JsonArray := [int p.1, int p.2]

/-- The case labels of the `switch` are pairwise different, as C++ requires. -/
def TileId.Distinct (ids : TileId) : Prop :=
  ids.ENTRANCE ≠ ids.EXIT ∧ ids.ENTRANCE ≠ ids.LOCKED_EXIT ∧ ids.ENTRANCE ≠ ids.UNLOCKED_EXIT ∧
  ids.EXIT ≠ ids.LOCKED_EXIT ∧ ids.EXIT ≠ ids.UNLOCKED_EXIT ∧
  ids.LOCKED_EXIT ≠ ids.UNLOCKED_EXIT

instance (ids : TileId) : Decidable ids.Distinct := by
  unfold TileId.Distinct; infer_instance

/-- The last layer with a given name, if there is one. -/
def lastNamed (name : String) (layers : List Layer) : Option Layer :=
  (layers.filter (fun l => l.name = name)).getLast?

/-- The name stored under "tiles" by a "deco" layer: that of the first used
tileset, followed by ".png". -/
def decoTiles (layer : Layer) : JsonValue :=
  match layer.usedTilesets with
  | t :: _ => str (t.name ++ ".png")
  | [] => str ".png"

/-- The message of the validation error of a "deco" layer. -/
def decoError (layer : Layer) : String :=
  if layer.usedTilesets.length = 0 then "You have deco layer please fill it"
  else "Only one tileset per layer supported"

/-- The number of cells of the layer that hold the ENTRANCE sentinel. -/
def entranceCount (ids : TileId) (layer : Layer) : Nat :=
  ((Finset.range layer.width.toNat ×ˢ Finset.range layer.height.toNat).filter
    (fun p => (layer.cellAt p.1 p.2).tileId = ids.ENTRANCE)).card

/-- The number of cells of the layer that hold one of EXIT, LOCKED_EXIT and
UNLOCKED_EXIT. -/
def exitCount (ids : TileId) (layer : Layer) : Nat :=
  ((Finset.range layer.width.toNat ×ˢ Finset.range layer.height.toNat).filter
    (fun p => (layer.cellAt p.1 p.2).tileId = ids.EXIT ∨
      (layer.cellAt p.1 p.2).tileId = ids.LOCKED_EXIT ∨
      (layer.cellAt p.1 p.2).tileId = ids.UNLOCKED_EXIT)).card

/-! ## Sample data -/

/-- Sample values for the sentinel tile ids. -/
def sampleIds : TileId := { ENTRANCE := 7, EXIT := 8, LOCKED_EXIT := 25, UNLOCKED_EXIT := 26 }

/-- A "logic" layer of width 2 and height 3 with one ENTRANCE cell at (1, 2),
an EXIT cell at (0, 1) and an UNLOCKED_EXIT cell at (1, 0). -/
def sampleLogic : Layer :=
  { name := "logic", width := 2, height := 3,
    cellAt := fun i j =>
      if i = 1 ∧ j = 2 then ⟨7⟩ else if i = 0 ∧ j = 1 then ⟨8⟩
      else if i = 1 ∧ j = 0 then ⟨26⟩ else ⟨1⟩,
    usedTilesets := [⟨"tiles_sewers"⟩] }

/-- A "logic" layer of width 2 and height 2 with two ENTRANCE cells, at
(0, 1) and (1, 0), and a LOCKED_EXIT cell at (1, 1). -/
def twoEntrances : Layer :=
  { name := "logic", width := 2, height := 2,
    cellAt := fun i j =>
      if i = 0 ∧ j = 1 then ⟨7⟩ else if i = 1 ∧ j = 0 then ⟨7⟩
      else if i = 1 ∧ j = 1 then ⟨25⟩ else ⟨4⟩,
    usedTilesets := [⟨"tiles_sewers"⟩] }

/-- A "base" layer of width 2 and height 1. -/
def sampleBase : Layer :=
  { name := "base", width := 2, height := 1,
    cellAt := fun i _ => if i = 0 then ⟨11⟩ else ⟨12⟩,
    usedTilesets := [⟨"tiles_sewers"⟩] }

/-- A map with two "logic" layers, the sample "base" layer between them. -/
def twoLogicMap : Map := { layers := [sampleLogic, sampleBase, twoEntrances] }

/-- A "deco" layer of width 2 and height 2 whose cells use one tileset. -/
def sampleDeco : Layer :=
  { name := "deco", width := 2, height := 2,
    cellAt := fun i j => if i = 0 ∧ j = 0 then ⟨3⟩ else if i = 1 ∧ j = 1 then ⟨5⟩ else ⟨-1⟩,
    usedTilesets := [⟨"tiles_caves"⟩] }

/-- A "deco" layer without any tile: no tileset is used. -/
def emptyDeco : Layer :=
  { name := "deco", width := 2, height := 2, cellAt := fun _ _ => ⟨-1⟩, usedTilesets := [] }

/-- A "deco" layer whose cells use two tilesets. -/
def mixedDeco : Layer :=
  { name := "deco", width := 2, height := 1,
    cellAt := fun i _ => if i = 0 then ⟨3⟩ else ⟨9⟩,
    usedTilesets := [⟨"tiles_caves"⟩, ⟨"tiles_city"⟩] }

/-- A writer that never fails; the text stands for the formatted JSON. -/
def sampleStringify (_ : JsonObject) : Except String String := .ok "json"

/-- An environment in which every file operation succeeds. -/
def goodDevice : Device := { opens := true, writeError := none, commitError := none }

/-- An environment in which the save file does not open. -/
def closedDevice : Device := { opens := false, writeError := none, commitError := none }

/-- An environment in which the commit fails. -/
def noCommitDevice : Device :=
  { opens := true, writeError := none, commitError := some "rename failed" }

/-! ## Lemmas on `JsonObject` -/

namespace JsonObject

theorem value_insert_self (o : JsonObject) (key : String) (v : JsonValue) :
    (o.insert key v).value key = some v := by
  induction o with
  | nil => simp [insert, value]
  | cons e rest ih =>
    obtain ⟨k, w⟩ := e
    by_cases h : k = key
    · simp [insert, value, h]
    · simp [insert, value, h, ih]

theorem value_insert_of_ne (o : JsonObject) {key key' : String} (v : JsonValue)
    (hne : key ≠ key') : (o.insert key v).value key' = o.value key' := by
  induction o with
  | nil => simp [insert, value, hne]
  | cons e rest ih =>
    obtain ⟨k, w⟩ := e
    by_cases h : k = key
    · subst h
      simp [insert, value, hne]
    · by_cases h' : k = key'
      · subst h'
        simp [insert, value, h]
      · simp [insert, value, h, h', ih]

end JsonObject

/-! ## Lemmas on the loops -/

theorem foldl_append_map {α : Type} (g : α → JsonValue) (l : List α) (init : JsonArray) :
    l.foldl (fun map i => JsonArray.append map (g i)) init = init ++ l.map g := by
  induction l generalizing init with
  | nil => simp
  | cons x xs ih => rw [List.foldl_cons, ih]; simp [JsonArray.append]

theorem foldl_append_flatMap {α β : Type} (f : α → List β) (l : List α) (init : List β) :
    l.foldl (fun acc x => acc ++ f x) init = init ++ l.flatMap f := by
  induction l generalizing init with
  | nil => simp
  | cons x xs ih => rw [List.foldl_cons, ih]; simp

/-- The rows of the layer one after the other: the closed form of the two loops of `packMapData`. -/
theorem packMapData_eq (layer : Layer) :
    packMapData layer =
      (List.range layer.height.toNat).flatMap (fun (j : Nat) =>
        (List.range layer.width.toNat).map (fun (i : Nat) => int (layer.cellAt i j).tileId)) := by
  unfold packMapData
  simp only [foldl_append_map]
  rw [foldl_append_flatMap (fun (j : Int) =>
    (loopRange layer.width).map (fun (i : Int) => int (layer.cellAt i j).tileId))]
  simp [loopRange, List.flatMap_map, Function.comp_def]

theorem rows_length {β : Type} (f : Nat → Nat → β) (w h : Nat) :
    ((List.range h).flatMap (fun j => (List.range w).map (fun i => f i j))).length = h * w := by
  induction h with
  | zero => simp
  | succ n ih =>
    rw [List.range_succ, List.flatMap_append, List.length_append, ih]
    simp [Nat.succ_mul]

theorem rows_getElem? {β : Type} (f : Nat → Nat → β) (w h i j : Nat) (hi : i < w) (hj : j < h) :
    ((List.range h).flatMap (fun j => (List.range w).map (fun i => f i j)))[j * w + i]? =
      some (f i j) := by
  induction h with
  | zero => omega
  | succ n ih =>
    rw [List.range_succ, List.flatMap_append]
    by_cases hjn : j < n
    · have hlt : j * w + i < n * w := by
        calc j * w + i < j * w + w := by omega
          _ = (j + 1) * w := by ring
          _ ≤ n * w := Nat.mul_le_mul_right w hjn
      rw [List.getElem?_append_left (by rw [rows_length]; exact hlt)]
      exact ih hjn
    · have hjeq : j = n := by omega
      subst hjeq
      rw [List.getElem?_append_right (by rw [rows_length]; omega), rows_length]
      simp [hi]

theorem packMapData_length (layer : Layer) :
    (packMapData layer).length = layer.height.toNat * layer.width.toNat := by
  rw [packMapData_eq]
  exact rows_length (fun (i j : Nat) => int (layer.cellAt i j).tileId) _ _

theorem packMapData_getElem? (layer : Layer) (i j : Nat)
    (hi : i < layer.width.toNat) (hj : j < layer.height.toNat) :
    (packMapData layer)[j * layer.width.toNat + i]? = some (int (layer.cellAt i j).tileId) := by
  rw [packMapData_eq]
  exact rows_getElem? (fun (i j : Nat) => int (layer.cellAt i j).tileId) _ _ i j hi hj

/-! ## The marker loop in closed form -/

theorem foldl_flatMap_eq {α β γ : Type} (f : α → List β) (g : γ → β → γ) (l : List α)
    (init : γ) :
    (l.flatMap f).foldl g init = l.foldl (fun acc x => (f x).foldl g acc) init := by
  induction l generalizing init with
  | nil => simp
  | cons x xs ih => simp [List.flatMap_cons, List.foldl_append, ih]

theorem scanMarkers_eq_foldl (ids : TileId) (layer : Layer) :
    scanMarkers ids layer =
      (scanOrder layer).foldl (fun acc p => scanCell ids layer p.1 p.2 acc) ([], []) := by
  unfold scanMarkers scanOrder loopRange
  rw [foldl_flatMap_eq, List.foldl_map]
  simp only [List.foldl_map]
  rfl

theorem foldl_scanCell (ids : TileId) (layer : Layer) (ps : List (Nat × Nat))
    (acc : JsonArray × JsonArray) :
    ps.foldl (fun acc p => scanCell ids layer p.1 p.2 acc) acc =
      (acc.1 ++ (ps.filter (isEntrance ids layer)).flatMap coords,
       acc.2 ++ (ps.filter (fun p => !isEntrance ids layer p && isExit ids layer p)).map
          (fun p => arr (coords p))) := by
  induction ps generalizing acc with
  | nil => simp
  | cons p ps ih =>
    rw [List.foldl_cons, ih]
    by_cases h1 : (layer.cellAt p.1 p.2).tileId = ids.ENTRANCE
    · simp [scanCell, isEntrance, h1, JsonArray.append, coords]
    · by_cases h2 : (layer.cellAt p.1 p.2).tileId = ids.EXIT ∨
          (layer.cellAt p.1 p.2).tileId = ids.LOCKED_EXIT ∨
          (layer.cellAt p.1 p.2).tileId = ids.UNLOCKED_EXIT
      · simp [scanCell, isEntrance, isExit, h1, h2, JsonArray.append, coords]
      · simp [scanCell, isEntrance, isExit, h1, h2]

/-- The closed form of the marker loop. -/
theorem scanMarkers_eq (ids : TileId) (layer : Layer) :
    scanMarkers ids layer =
      (((scanOrder layer).filter (isEntrance ids layer)).flatMap coords,
       ((scanOrder layer).filter (fun p => !isEntrance ids layer p && isExit ids layer p)).map
          (fun p => arr (coords p))) := by
  rw [scanMarkers_eq_foldl, foldl_scanCell]
  simp

theorem mem_scanOrder (layer : Layer) (p : Nat × Nat) :
    p ∈ scanOrder layer ↔ p.1 < layer.width.toNat ∧ p.2 < layer.height.toNat := by
  obtain ⟨i, j⟩ := p
  simp [scanOrder]

/-- The scan order is strictly increasing: by `i` first, then by `j`. -/
theorem scanOrder_pairwise (layer : Layer) :
    (scanOrder layer).Pairwise (fun p q => p.1 < q.1 ∨ (p.1 = q.1 ∧ p.2 < q.2)) := by
  unfold scanOrder
  rw [List.pairwise_flatMap]
  constructor
  · intro i _
    rw [List.pairwise_map]
    exact (List.pairwise_lt_range _).imp (fun h => Or.inr ⟨rfl, h⟩)
  · refine (List.pairwise_lt_range _).imp ?_
    intro a b hab x hx y hy
    simp only [List.mem_map] at hx hy
    obtain ⟨_, _, rfl⟩ := hx
    obtain ⟨_, _, rfl⟩ := hy
    exact Or.inl hab

theorem scanOrder_nodup (layer : Layer) : (scanOrder layer).Nodup := by
  refine (scanOrder_pairwise layer).imp ?_
  intro a b h hab
  subst hab
  omega

/-! ## What one layer does to the document -/

theorem writeLayer_logic (ids : TileId) (o : JsonObject) (layer : Layer)
    (h : layer.name = "logic") :
    writeLayer ids o layer =
      .ok (((((o.insert "width" (int layer.width)).insert "height" (int layer.height)).insert
        "map" (arr (packMapData layer))).insert "entrance" (arr (scanMarkers ids layer).1)).insert
        "multiexit" (arr (scanMarkers ids layer).2)) := by
  simp [writeLayer, h]

theorem writeLayer_base (ids : TileId) (o : JsonObject) (layer : Layer)
    (h : layer.name = "base") :
    writeLayer ids o layer = .ok (o.insert "baseTileVar" (arr (packMapData layer))) := by
  simp [writeLayer, h]

theorem writeLayer_deco_one (ids : TileId) (o : JsonObject) (layer : Layer) (t : Tileset)
    (h : layer.name = "deco") (ht : layer.usedTilesets = [t]) :
    writeLayer ids o layer =
      .ok (((o.insert "decoTileVar" (arr (packMapData layer))).insert "customTiles"
        (bool true)).insert "tiles" (str (t.name ++ ".png"))) := by
  simp [writeLayer, h, ht]

theorem writeLayer_deco_none (ids : TileId) (o : JsonObject) (layer : Layer)
    (h : layer.name = "deco") (ht : layer.usedTilesets.length = 0) :
    writeLayer ids o layer = .error "You have deco layer please fill it" := by
  simp [writeLayer, h, ht, tr]

theorem writeLayer_deco_many (ids : TileId) (o : JsonObject) (layer : Layer)
    (h : layer.name = "deco") (ht : 2 ≤ layer.usedTilesets.length) :
    writeLayer ids o layer = .error "Only one tileset per layer supported" := by
  have h0 : layer.usedTilesets.length ≠ 0 := by omega
  have h1 : layer.usedTilesets.length > 1 := by omega
  simp only [writeLayer, h, h0, h1, tr]
  simp

theorem writeLayer_other (ids : TileId) (o : JsonObject) (layer : Layer)
    (h1 : layer.name ≠ "logic") (h2 : layer.name ≠ "base") (h3 : layer.name ≠ "deco") :
    writeLayer ids o layer = .ok o := by
  simp [writeLayer, h1, h2, h3]

/-- The ways in which the loop body can succeed. -/
theorem writeLayer_ok_cases (ids : TileId) (o o' : JsonObject) (layer : Layer)
    (h : writeLayer ids o layer = .ok o') :
    (layer.name = "logic" ∧
      o' = ((((o.insert "width" (int layer.width)).insert "height" (int layer.height)).insert
        "map" (arr (packMapData layer))).insert "entrance" (arr (scanMarkers ids layer).1)).insert
        "multiexit" (arr (scanMarkers ids layer).2)) ∨
    (layer.name = "base" ∧ o' = o.insert "baseTileVar" (arr (packMapData layer))) ∨
    (layer.name = "deco" ∧ ∃ t, layer.usedTilesets = [t] ∧
      o' = ((o.insert "decoTileVar" (arr (packMapData layer))).insert "customTiles"
        (bool true)).insert "tiles" (str (t.name ++ ".png"))) ∨
    (layer.name ≠ "logic" ∧ layer.name ≠ "base" ∧ layer.name ≠ "deco" ∧ o' = o) := by
  by_cases h1 : layer.name = "logic"
  · rw [writeLayer_logic ids o layer h1] at h
    exact Or.inl ⟨h1, (Except.ok.inj h).symm⟩
  · by_cases h2 : layer.name = "base"
    · rw [writeLayer_base ids o layer h2] at h
      exact Or.inr (Or.inl ⟨h2, (Except.ok.inj h).symm⟩)
    · by_cases h3 : layer.name = "deco"
      · refine Or.inr (Or.inr (Or.inl ⟨h3, ?_⟩))
        match hts : layer.usedTilesets with
        | [] =>
          rw [writeLayer_deco_none ids o layer h3 (by rw [hts]; rfl)] at h
          cases h
        | [t] =>
          rw [writeLayer_deco_one ids o layer t h3 hts] at h
          exact ⟨t, rfl, (Except.ok.inj h).symm⟩
        | _ :: _ :: _ =>
          rw [writeLayer_deco_many ids o layer h3 (by rw [hts]; simp)] at h
          cases h
      · rw [writeLayer_other ids o layer h1 h2 h3] at h
        exact Or.inr (Or.inr (Or.inr ⟨h1, h2, h3, (Except.ok.inj h).symm⟩))

theorem lastNamed_cons (name : String) (layer : Layer) (rest : List Layer) :
    lastNamed name (layer :: rest) =
      match lastNamed name rest with
      | some l => some l
      | none => if layer.name = name then some layer else none := by
  unfold lastNamed
  by_cases h : layer.name = name
  · rw [List.filter_cons_of_pos (by simpa using h), List.getLast?_cons]
    generalize (List.filter (fun l => decide (l.name = name)) rest).getLast? = r
    cases r <;> simp [h]
  · rw [List.filter_cons_of_neg (by simpa using h)]
    generalize (List.filter (fun l => decide (l.name = name)) rest).getLast? = r
    cases r <;> simp [h]

/-- A key written by the layers of one name only holds, after the loop, what
the last layer of that name wrote; without such a layer it is left as it was. -/
theorem writeLayers_value (ids : TileId) (key name : String) (c : Layer → JsonValue)
    (hstep : ∀ (o o' : JsonObject) (layer : Layer), writeLayer ids o layer = .ok o' →
      o'.value key = if layer.name = name then some (c layer) else o.value key)
    (layers : List Layer) (o o' : JsonObject) (h : writeLayers ids o layers = .ok o') :
    o'.value key =
      match lastNamed name layers with
      | some l => some (c l)
      | none => o.value key := by
  induction layers generalizing o with
  | nil =>
    simp only [writeLayers] at h
    cases h
    simp [lastNamed]
  | cons layer rest ih =>
    simp only [writeLayers] at h
    match h1 : writeLayer ids o layer with
    | .error e => rw [h1] at h; cases h
    | .ok o1 =>
      rw [h1] at h
      rw [ih o1 h, lastNamed_cons]
      cases lastNamed name rest with
      | some l => rfl
      | none =>
        simp only [hstep o o1 layer h1]
        by_cases hn : layer.name = name <;> simp [hn]

/-! ## What the loop over the layers leaves under each key -/

theorem step_width (ids : TileId) (o o' : JsonObject) (layer : Layer)
    (h : writeLayer ids o layer = .ok o') :
    o'.value "width" = if layer.name = "logic" then some (int layer.width) else o.value "width" := by
  rcases writeLayer_ok_cases ids o o' layer h with
    ⟨hn, rfl⟩ | ⟨hn, rfl⟩ | ⟨hn, t, _, rfl⟩ | ⟨h1, _, _, rfl⟩
  · simp [hn, JsonObject.value_insert_self, JsonObject.value_insert_of_ne]
  · simp [hn, JsonObject.value_insert_of_ne]
  · simp [hn, JsonObject.value_insert_of_ne]
  · simp [h1]

theorem step_height (ids : TileId) (o o' : JsonObject) (layer : Layer)
    (h : writeLayer ids o layer = .ok o') :
    o'.value "height" =
      if layer.name = "logic" then some (int layer.height) else o.value "height" := by
  rcases writeLayer_ok_cases ids o o' layer h with
    ⟨hn, rfl⟩ | ⟨hn, rfl⟩ | ⟨hn, t, _, rfl⟩ | ⟨h1, _, _, rfl⟩
  · simp [hn, JsonObject.value_insert_self, JsonObject.value_insert_of_ne]
  · simp [hn, JsonObject.value_insert_of_ne]
  · simp [hn, JsonObject.value_insert_of_ne]
  · simp [h1]

theorem step_map (ids : TileId) (o o' : JsonObject) (layer : Layer)
    (h : writeLayer ids o layer = .ok o') :
    o'.value "map" =
      if layer.name = "logic" then some (arr (packMapData layer)) else o.value "map" := by
  rcases writeLayer_ok_cases ids o o' layer h with
    ⟨hn, rfl⟩ | ⟨hn, rfl⟩ | ⟨hn, t, _, rfl⟩ | ⟨h1, _, _, rfl⟩
  · simp [hn, JsonObject.value_insert_self, JsonObject.value_insert_of_ne]
  · simp [hn, JsonObject.value_insert_of_ne]
  · simp [hn, JsonObject.value_insert_of_ne]
  · simp [h1]

theorem step_entrance (ids : TileId) (o o' : JsonObject) (layer : Layer)
    (h : writeLayer ids o layer = .ok o') :
    o'.value "entrance" =
      if layer.name = "logic" then some (arr (scanMarkers ids layer).1)
      else o.value "entrance" := by
  rcases writeLayer_ok_cases ids o o' layer h with
    ⟨hn, rfl⟩ | ⟨hn, rfl⟩ | ⟨hn, t, _, rfl⟩ | ⟨h1, _, _, rfl⟩
  · simp [hn, JsonObject.value_insert_self, JsonObject.value_insert_of_ne]
  · simp [hn, JsonObject.value_insert_of_ne]
  · simp [hn, JsonObject.value_insert_of_ne]
  · simp [h1]

theorem step_multiexit (ids : TileId) (o o' : JsonObject) (layer : Layer)
    (h : writeLayer ids o layer = .ok o') :
    o'.value "multiexit" =
      if layer.name = "logic" then some (arr (scanMarkers ids layer).2)
      else o.value "multiexit" := by
  rcases writeLayer_ok_cases ids o o' layer h with
    ⟨hn, rfl⟩ | ⟨hn, rfl⟩ | ⟨hn, t, _, rfl⟩ | ⟨h1, _, _, rfl⟩
  · simp [hn, JsonObject.value_insert_self, JsonObject.value_insert_of_ne]
  · simp [hn, JsonObject.value_insert_of_ne]
  · simp [hn, JsonObject.value_insert_of_ne]
  · simp [h1]

theorem step_baseTileVar (ids : TileId) (o o' : JsonObject) (layer : Layer)
    (h : writeLayer ids o layer = .ok o') :
    o'.value "baseTileVar" =
      if layer.name = "base" then some (arr (packMapData layer))
      else o.value "baseTileVar" := by
  rcases writeLayer_ok_cases ids o o' layer h with
    ⟨hn, rfl⟩ | ⟨hn, rfl⟩ | ⟨hn, t, _, rfl⟩ | ⟨_, h2, _, rfl⟩
  · simp [hn, JsonObject.value_insert_of_ne]
  · simp [hn, JsonObject.value_insert_self]
  · simp [hn, JsonObject.value_insert_of_ne]
  · simp [h2]

theorem step_tiles (ids : TileId) (o o' : JsonObject) (layer : Layer)
    (h : writeLayer ids o layer = .ok o') :
    o'.value "tiles" = if layer.name = "deco" then some (decoTiles layer) else o.value "tiles" := by
  rcases writeLayer_ok_cases ids o o' layer h with
    ⟨hn, rfl⟩ | ⟨hn, rfl⟩ | ⟨hn, t, ht, rfl⟩ | ⟨_, _, h3, rfl⟩
  · simp [hn, JsonObject.value_insert_of_ne]
  · simp [hn, JsonObject.value_insert_of_ne]
  · simp [hn, JsonObject.value_insert_self, decoTiles, ht]
  · simp [h3]

/-- The document comes from the object the loop leaves by the two final
steps of the assembly. -/
theorem assemble_ok (ids : TileId) (map : Map) (doc : JsonObject)
    (h : assemble ids map = .ok doc) :
    ∃ o, writeLayers ids [] map.layers = .ok o ∧
      doc = (if !o.contains "tiles" then o.insert "tiles" (str "tiles0_x.png")
        else o).insert "water" (str "water0.png") := by
  unfold assemble at h
  match hw : writeLayers ids [] map.layers with
  | .error e => rw [hw] at h; cases h
  | .ok o =>
    rw [hw] at h
    exact ⟨o, rfl, (Except.ok.inj h).symm⟩

theorem assemble_of_writeLayers (ids : TileId) (map : Map) (o : JsonObject)
    (h : writeLayers ids [] map.layers = .ok o) :
    assemble ids map =
      .ok ((if !o.contains "tiles" then o.insert "tiles" (str "tiles0_x.png")
        else o).insert "water" (str "water0.png")) := by
  unfold assemble
  rw [h]

/-- The two final steps touch the keys "tiles" and "water" only. -/
theorem final_value (o : JsonObject) (key : String) (h1 : key ≠ "tiles") (h2 : key ≠ "water") :
    ((if !o.contains "tiles" then o.insert "tiles" (str "tiles0_x.png")
        else o).insert "water" (str "water0.png")).value key = o.value key := by
  rw [JsonObject.value_insert_of_ne _ _ (Ne.symm h2)]
  split
  · rw [JsonObject.value_insert_of_ne _ _ (Ne.symm h1)]
  · rfl

theorem empty_value (key : String) : JsonObject.value [] key = none := rfl

theorem step_decoTileVar (ids : TileId) (o o' : JsonObject) (layer : Layer)
    (h : writeLayer ids o layer = .ok o') :
    o'.value "decoTileVar" =
      if layer.name = "deco" then some (arr (packMapData layer))
      else o.value "decoTileVar" := by
  rcases writeLayer_ok_cases ids o o' layer h with
    ⟨hn, rfl⟩ | ⟨hn, rfl⟩ | ⟨hn, t, _, rfl⟩ | ⟨_, _, h3, rfl⟩
  · simp [hn, JsonObject.value_insert_of_ne]
  · simp [hn, JsonObject.value_insert_of_ne]
  · simp [hn, JsonObject.value_insert_self, JsonObject.value_insert_of_ne]
  · simp [h3]

theorem step_customTiles (ids : TileId) (o o' : JsonObject) (layer : Layer)
    (h : writeLayer ids o layer = .ok o') :
    o'.value "customTiles" =
      if layer.name = "deco" then some (bool true) else o.value "customTiles" := by
  rcases writeLayer_ok_cases ids o o' layer h with
    ⟨hn, rfl⟩ | ⟨hn, rfl⟩ | ⟨hn, t, _, rfl⟩ | ⟨_, _, h3, rfl⟩
  · simp [hn, JsonObject.value_insert_of_ne]
  · simp [hn, JsonObject.value_insert_of_ne]
  · simp [hn, JsonObject.value_insert_self, JsonObject.value_insert_of_ne]
  · simp [h3]

/-! ## When the loop over the layers succeeds -/

/-- A layer that is not a "deco" layer with a wrong number of tilesets passes. -/
theorem writeLayer_succeeds (ids : TileId) (o : JsonObject) (layer : Layer)
    (h : layer.name = "deco" → layer.usedTilesets.length = 1) :
    ∃ o', writeLayer ids o layer = .ok o' := by
  by_cases h1 : layer.name = "logic"
  · exact ⟨_, writeLayer_logic ids o layer h1⟩
  · by_cases h2 : layer.name = "base"
    · exact ⟨_, writeLayer_base ids o layer h2⟩
    · by_cases h3 : layer.name = "deco"
      · obtain ⟨t, ht⟩ := List.length_eq_one.mp (h h3)
        exact ⟨_, writeLayer_deco_one ids o layer t h3 ht⟩
      · exact ⟨_, writeLayer_other ids o layer h1 h2 h3⟩

theorem writeLayers_succeeds (ids : TileId) (layers : List Layer) (o : JsonObject)
    (h : ∀ l ∈ layers, l.name = "deco" → l.usedTilesets.length = 1) :
    ∃ o', writeLayers ids o layers = .ok o' := by
  induction layers generalizing o with
  | nil => exact ⟨o, rfl⟩
  | cons layer rest ih =>
    obtain ⟨o1, h1⟩ := writeLayer_succeeds ids o layer (h layer (List.mem_cons_self _ _))
    obtain ⟨o2, h2⟩ := ih o1 (fun l hl => h l (List.mem_cons_of_mem _ hl))
    exact ⟨o2, by simp only [writeLayers, h1, h2]⟩

/-- The document is assembled when every "deco" layer uses exactly one tileset. -/
theorem assemble_succeeds (ids : TileId) (map : Map)
    (h : ∀ l ∈ map.layers, l.name = "deco" → l.usedTilesets.length = 1) :
    ∃ doc, assemble ids map = .ok doc := by
  obtain ⟨o, ho⟩ := writeLayers_succeeds ids map.layers [] h
  exact ⟨_, assemble_of_writeLayers ids map o ho⟩

/-- The loop stops at the first "deco" layer whose number of used tilesets is
not one, with the message of that layer. -/
theorem writeLayers_fails (ids : TileId) (layers : List Layer) (o : JsonObject) (d : Layer)
    (h : layers.find? (fun l => decide (l.name = "deco" ∧ l.usedTilesets.length ≠ 1)) = some d) :
    writeLayers ids o layers = .error (decoError d) := by
  induction layers generalizing o with
  | nil => simp at h
  | cons layer rest ih =>
    by_cases hb : layer.name = "deco" ∧ layer.usedTilesets.length ≠ 1
    · rw [List.find?_cons_of_pos _ (by simpa using hb)] at h
      obtain rfl : layer = d := Option.some.inj h
      by_cases h0 : layer.usedTilesets.length = 0
      · simp only [writeLayers, writeLayer_deco_none ids o layer hb.1 h0, decoError, h0, if_true]
      · have h2 : 2 ≤ layer.usedTilesets.length := by have := hb.2; omega
        simp only [writeLayers, writeLayer_deco_many ids o layer hb.1 h2, decoError, h0, if_false]
    · rw [List.find?_cons_of_neg _ (by simpa using hb)] at h
      obtain ⟨o1, h1⟩ := writeLayer_succeeds ids o layer (by
        intro hn
        by_contra hl
        exact hb ⟨hn, hl⟩)
      simp only [writeLayers, h1]
      exact ih o1 h

theorem lastNamed_none_of_forall (name : String) (layers : List Layer)
    (h : ∀ l ∈ layers, l.name ≠ name) : lastNamed name layers = none := by
  unfold lastNamed
  have : layers.filter (fun l => decide (l.name = name)) = [] := by
    rw [List.filter_eq_nil_iff]
    intro l hl
    simpa using h l hl
  rw [this]
  rfl

theorem lastNamed_of_filter_singleton (name : String) (layers : List Layer) (layer : Layer)
    (h : layers.filter (fun l => decide (l.name = name)) = [layer]) :
    lastNamed name layers = some layer := by
  unfold lastNamed
  rw [h]
  rfl

/-! ## Counting the marker cells -/

theorem entrance_length (ids : TileId) (layer : Layer) :
    ((scanOrder layer).filter (isEntrance ids layer)).length = entranceCount ids layer := by
  unfold entranceCount
  rw [← List.toFinset_card_of_nodup ((scanOrder_nodup layer).filter _)]
  congr 1
  ext p
  simp [mem_scanOrder, isEntrance]

theorem exit_length (ids : TileId) (layer : Layer) :
    ((scanOrder layer).filter (isExit ids layer)).length = exitCount ids layer := by
  unfold exitCount
  rw [← List.toFinset_card_of_nodup ((scanOrder_nodup layer).filter _)]
  congr 1
  ext p
  simp [mem_scanOrder, isExit]

/-- With distinct case labels an EXIT-family cell is not an ENTRANCE cell. -/
theorem exit_filter_eq (ids : TileId) (layer : Layer) (hd : ids.Distinct) (ps : List (Nat × Nat)) :
    ps.filter (fun p => !isEntrance ids layer p && isExit ids layer p) =
      ps.filter (isExit ids layer) := by
  apply List.filter_congr
  intro p _
  obtain ⟨h1, h2, h3, -⟩ := hd
  by_cases hx : isExit ids layer p = true
  · have hne : isEntrance ids layer p = false := by
      simp only [isExit, decide_eq_true_eq] at hx
      simp only [isEntrance, decide_eq_false_iff_not]
      intro he
      rcases hx with hx | hx | hx
      · exact h1 (he.symm.trans hx)
      · exact h2 (he.symm.trans hx)
      · exact h3 (he.symm.trans hx)
    simp [hx, hne]
  · simp [hx]

theorem coords_length (ps : List (Nat × Nat)) : (ps.flatMap coords).length = 2 * ps.length := by
  induction ps with
  | nil => rfl
  | cons p ps ih => simp [List.flatMap_cons, coords, ih]; omega

theorem arr_coords_injective : Function.Injective (fun p : Nat × Nat => arr (coords p)) := by
  intro p q h
  simp only [coords, arr.injEq, List.cons.injEq, int.injEq, Nat.cast_inj, and_true] at h
  exact Prod.ext h.1 h.2

theorem eq_singleton_of_nodup {α : Type} (l : List α) (a : α) (hn : l.Nodup) (ha : a ∈ l)
    (hall : ∀ b ∈ l, b = a) : l = [a] := by
  match l, hn, ha, hall with
  | [b], _, _, hall => rw [hall b (List.mem_singleton_self b)]
  | b :: c :: rest, hn, _, hall =>
    have hb := hall b (List.mem_cons_self _ _)
    have hc := hall c (List.mem_cons_of_mem _ (List.mem_cons_self _ _))
    rw [List.nodup_cons] at hn
    exact absurd (by rw [hb, ← hc]; exact List.mem_cons_self c rest) hn.1

/-! ## The document and the last layer of each name -/

/-- A key other than "tiles" and "water" holds in the document what the last
layer of the name that writes it left there. -/
theorem assemble_value (ids : TileId) (key name : String) (c : Layer → JsonValue)
    (hstep : ∀ (o o' : JsonObject) (layer : Layer), writeLayer ids o layer = .ok o' →
      o'.value key = if layer.name = name then some (c layer) else o.value key)
    (h1 : key ≠ "tiles") (h2 : key ≠ "water")
    (map : Map) (doc : JsonObject) (h : assemble ids map = .ok doc) :
    doc.value key = (lastNamed name map.layers).map c := by
  obtain ⟨o, ho, rfl⟩ := assemble_ok ids map doc h
  rw [final_value o key h1 h2, writeLayers_value ids key name c hstep map.layers [] o ho]
  cases lastNamed name map.layers <;> rfl

/-- The five keys of the "logic" block hold what the last "logic" layer wrote. -/
theorem assemble_logic (ids : TileId) (map : Map) (doc : JsonObject)
    (h : assemble ids map = .ok doc) :
    doc.value "width" = (lastNamed "logic" map.layers).map (fun l => int l.width) ∧
    doc.value "height" = (lastNamed "logic" map.layers).map (fun l => int l.height) ∧
    doc.value "map" = (lastNamed "logic" map.layers).map (fun l => arr (packMapData l)) ∧
    doc.value "entrance" =
      (lastNamed "logic" map.layers).map (fun l => arr (scanMarkers ids l).1) ∧
    doc.value "multiexit" =
      (lastNamed "logic" map.layers).map (fun l => arr (scanMarkers ids l).2) :=
  ⟨assemble_value ids "width" "logic" _ (step_width ids) (by decide) (by decide) map doc h,
   assemble_value ids "height" "logic" _ (step_height ids) (by decide) (by decide) map doc h,
   assemble_value ids "map" "logic" _ (step_map ids) (by decide) (by decide) map doc h,
   assemble_value ids "entrance" "logic" _ (step_entrance ids) (by decide) (by decide) map doc h,
   assemble_value ids "multiexit" "logic" _ (step_multiexit ids) (by decide) (by decide) map doc h⟩

theorem lastNamed_of_split (name : String) (layers pre post : List Layer) (layer : Layer)
    (hsplit : layers = pre ++ layer :: post) (hname : layer.name = name)
    (hpost : ∀ l ∈ post, l.name ≠ name) : lastNamed name layers = some layer := by
  unfold lastNamed
  have hp : post.filter (fun l => decide (l.name = name)) = [] := by
    rw [List.filter_eq_nil_iff]
    intro l hl
    simpa using hpost l hl
  rw [hsplit, List.filter_append, List.filter_cons_of_pos (by simpa using hname), hp,
    List.getLast?_append]
  rfl

/-- The key "tiles" holds the name written by the last "deco" layer, or the
fallback when no layer is named "deco"; "water" holds its fixed value. -/
theorem assemble_tiles_water (ids : TileId) (map : Map) (doc : JsonObject)
    (h : assemble ids map = .ok doc) :
    doc.value "tiles" =
      some (match lastNamed "deco" map.layers with
        | some l => decoTiles l
        | none => str "tiles0_x.png") ∧
    doc.value "water" = some (str "water0.png") := by
  obtain ⟨o, ho, rfl⟩ := assemble_ok ids map doc h
  refine ⟨?_, JsonObject.value_insert_self _ _ _⟩
  rw [JsonObject.value_insert_of_ne _ _ (by decide)]
  have ht := writeLayers_value ids "tiles" "deco" decoTiles (step_tiles ids) map.layers [] o ho
  cases hl : lastNamed "deco" map.layers with
  | some l =>
    rw [hl] at ht
    simp [JsonObject.contains, ht]
  | none =>
    rw [hl] at ht
    simp [JsonObject.contains, ht, empty_value, JsonObject.value_insert_self]

/-- What `write` returns when the save file opens and the assembly of the
document fails: nothing is staged and no commit is attempted. -/
theorem write_of_assemble_error (self : RpdMapFormat) (ids : TileId)
    (stringify : JsonObject → Except String String) (dev : Device) (map : Map)
    (onDisk : Option String) (e : String) (hopen : dev.opens = true)
    (h : assemble ids map = .error e) :
    self.write ids stringify dev map onDisk =
      (false, { mError := e },
        { destination := onDisk, staged := some "", error := none, commitAttempts := 0,
          committed := false }) := by
  simp [RpdMapFormat.write, SaveFile.create, SaveFile.openDevice, hopen, h]

theorem assemble_fails (ids : TileId) (map : Map) (d : Layer)
    (h : map.layers.find? (fun l => decide (l.name = "deco" ∧ l.usedTilesets.length ≠ 1)) =
      some d) :
    assemble ids map = .error (decoError d) := by
  unfold assemble
  rw [writeLayers_fails ids map.layers [] d h]

/-! ## The claims -/

/-- C1: for a tile layer of width `W` and height `H`, `packMapData` returns
exactly `W * H` values, all of them integers, in row-major order: for
`i < W` and `j < H` the element at index `j * W + i` is the tile id of the
cell at `(i, j)`. -/
theorem packMapData_row_major (layer : Layer) (W H : Nat)
    (hW : layer.width = W) (hH : layer.height = H) :
    (packMapData layer).length = W * H ∧
    (∀ v ∈ packMapData layer, ∃ n : Int, v = int n) ∧
    ∀ i j : Nat, i < W → j < H →
      (packMapData layer)[j * W + i]? = some (int (layer.cellAt i j).tileId) := by
  have hw : layer.width.toNat = W := by rw [hW]; rfl
  have hh : layer.height.toNat = H := by rw [hH]; rfl
  refine ⟨?_, ?_, ?_⟩
  · rw [packMapData_length, hw, hh, Nat.mul_comm]
  · intro v hv
    rw [packMapData_eq] at hv
    simp only [List.mem_flatMap, List.mem_map] at hv
    obtain ⟨j, _, i, _, rfl⟩ := hv
    exact ⟨_, rfl⟩
  · intro i j hi hj
    have := packMapData_getElem? layer i j (by rw [hw]; exact hi) (by rw [hh]; exact hj)
    rw [hw] at this
    exact this

/-- Witness of C1 on the sample layer of width 2 and height 3. -/
theorem packMapData_row_major_witness :
    (packMapData sampleLogic).length = 2 * 3 ∧
    (∀ v ∈ packMapData sampleLogic, ∃ n : Int, v = int n) ∧
    ∀ i j : Nat, i < 2 → j < 3 →
      (packMapData sampleLogic)[j * 2 + i]? = some (int (sampleLogic.cellAt i j).tileId) :=
  packMapData_row_major sampleLogic 2 3 rfl rfl

/-- C9: for a map with a single layer named "logic" holding `k` ENTRANCE
cells (and whose document is assembled), "entrance" is the flat list
`[x1, y1, ..., xk, yk]` of exactly `2 * k` integers, the positions of all
ENTRANCE cells and only those, in increasing `x`, then increasing `y`; with
`k = 0` it is the empty list. -/
theorem entrance_flat_list (ids : TileId) (map : Map) (layer : Layer) (k : Nat)
    (hsingle : map.layers.filter (fun l => decide (l.name = "logic")) = [layer])
    (hdeco : ∀ l ∈ map.layers, l.name = "deco" → l.usedTilesets.length = 1)
    (hk : entranceCount ids layer = k) :
    ∃ doc, assemble ids map = .ok doc ∧
      ∃ ps : List (Nat × Nat),
        doc.value "entrance" = some (arr (ps.flatMap (fun p => [int p.1, int p.2]))) ∧
        ps.length = k ∧
        (ps.flatMap (fun p => [int p.1, int p.2])).length = 2 * k ∧
        (∀ i j : Nat, (i, j) ∈ ps ↔
          i < layer.width.toNat ∧ j < layer.height.toNat ∧
            (layer.cellAt i j).tileId = ids.ENTRANCE) ∧
        ps.Pairwise (fun p q => p.1 < q.1 ∨ (p.1 = q.1 ∧ p.2 < q.2)) ∧
        (k = 0 → doc.value "entrance" = some (arr [])) := by
  obtain ⟨doc, hdoc⟩ := assemble_succeeds ids map hdeco
  have hval := (assemble_logic ids map doc hdoc).2.2.2.1
  rw [lastNamed_of_filter_singleton "logic" map.layers layer hsingle, Option.map_some',
    scanMarkers_eq] at hval
  have hlen := entrance_length ids layer
  rw [hk] at hlen
  refine ⟨doc, hdoc, (scanOrder layer).filter (isEntrance ids layer), hval, hlen, ?_, ?_, ?_, ?_⟩
  · have := coords_length ((scanOrder layer).filter (isEntrance ids layer))
    rw [hlen] at this
    exact this
  · intro i j
    simp [List.mem_filter, mem_scanOrder, isEntrance, and_assoc]
  · exact (scanOrder_pairwise layer).filter _
  · intro h0
    rw [h0] at hlen
    rw [hval, List.length_eq_zero.mp hlen]
    rfl

/-- Witness of C9: the sample "logic" layer, alone in its map, has one
ENTRANCE cell. -/
theorem entrance_flat_list_witness :
    ∃ doc, assemble sampleIds ⟨[sampleLogic]⟩ = .ok doc ∧
      ∃ ps : List (Nat × Nat),
        doc.value "entrance" = some (arr (ps.flatMap (fun p => [int p.1, int p.2]))) ∧
        ps.length = 1 ∧
        (ps.flatMap (fun p => [int p.1, int p.2])).length = 2 * 1 ∧
        (∀ i j : Nat, (i, j) ∈ ps ↔
          i < sampleLogic.width.toNat ∧ j < sampleLogic.height.toNat ∧
            (sampleLogic.cellAt i j).tileId = sampleIds.ENTRANCE) ∧
        ps.Pairwise (fun p q => p.1 < q.1 ∨ (p.1 = q.1 ∧ p.2 < q.2)) ∧
        (1 = 0 → doc.value "entrance" = some (arr [])) :=
  entrance_flat_list sampleIds ⟨[sampleLogic]⟩ sampleLogic 1 rfl (by decide) (by decide)

/-- C2: for a map with a single layer named "logic" (and whose document is
assembled) that holds exactly one ENTRANCE cell, at `(x, y)`, "entrance" is
the two-element list `[x, y]`. -/
theorem entrance_single (ids : TileId) (map : Map) (layer : Layer) (x y : Nat)
    (hsingle : map.layers.filter (fun l => decide (l.name = "logic")) = [layer])
    (hdeco : ∀ l ∈ map.layers, l.name = "deco" → l.usedTilesets.length = 1)
    (hx : x < layer.width.toNat) (hy : y < layer.height.toNat)
    (hcell : (layer.cellAt x y).tileId = ids.ENTRANCE)
    (honly : ∀ i : Nat, i < layer.width.toNat → ∀ j : Nat, j < layer.height.toNat →
      (layer.cellAt i j).tileId = ids.ENTRANCE → i = x ∧ j = y) :
    ∃ doc, assemble ids map = .ok doc ∧
      doc.value "entrance" = some (arr [int x, int y]) := by
  obtain ⟨doc, hdoc⟩ := assemble_succeeds ids map hdeco
  have hval := (assemble_logic ids map doc hdoc).2.2.2.1
  rw [lastNamed_of_filter_singleton "logic" map.layers layer hsingle, Option.map_some',
    scanMarkers_eq] at hval
  have hps : (scanOrder layer).filter (isEntrance ids layer) = [(x, y)] := by
    apply eq_singleton_of_nodup _ _ ((scanOrder_nodup layer).filter _)
    · simp [List.mem_filter, mem_scanOrder, isEntrance, hx, hy, hcell]
    · intro p hp
      obtain ⟨i, j⟩ := p
      simp only [List.mem_filter, mem_scanOrder, isEntrance, decide_eq_true_eq] at hp
      obtain ⟨hi, hj⟩ := honly i hp.1.1 j hp.1.2 hp.2
      rw [hi, hj]
  rw [hps] at hval
  exact ⟨doc, hdoc, hval⟩

/-- Witness of C2: the sample "logic" layer has its one ENTRANCE cell at (1, 2). -/
theorem entrance_single_witness :
    ∃ doc, assemble sampleIds ⟨[sampleLogic]⟩ = .ok doc ∧
      doc.value "entrance" = some (arr [int 1, int 2]) :=
  entrance_single sampleIds ⟨[sampleLogic]⟩ sampleLogic 1 2 rfl (by decide)
    (by decide) (by decide) (by decide) (by decide)

/-- C3: for a map with a single layer named "logic" (and whose document is
assembled) holding `N` cells with one of the ids EXIT, LOCKED_EXIT and
UNLOCKED_EXIT, "multiexit" is a list of exactly `N` elements, each a
two-element list `[x, y]` that is the position of such a cell, and the
position of every such cell occurs exactly once. -/
theorem multiexit_positions (ids : TileId) (hd : ids.Distinct) (map : Map) (layer : Layer)
    (N : Nat)
    (hsingle : map.layers.filter (fun l => decide (l.name = "logic")) = [layer])
    (hdeco : ∀ l ∈ map.layers, l.name = "deco" → l.usedTilesets.length = 1)
    (hN : exitCount ids layer = N) :
    ∃ doc, assemble ids map = .ok doc ∧
      ∃ exits : List JsonValue,
        doc.value "multiexit" = some (arr exits) ∧
        exits.length = N ∧
        (∀ e ∈ exits, ∃ i j : Nat, e = arr [int i, int j] ∧
          i < layer.width.toNat ∧ j < layer.height.toNat ∧
          ((layer.cellAt i j).tileId = ids.EXIT ∨ (layer.cellAt i j).tileId = ids.LOCKED_EXIT ∨
            (layer.cellAt i j).tileId = ids.UNLOCKED_EXIT)) ∧
        (∀ i : Nat, i < layer.width.toNat → ∀ j : Nat, j < layer.height.toNat →
          ((layer.cellAt i j).tileId = ids.EXIT ∨ (layer.cellAt i j).tileId = ids.LOCKED_EXIT ∨
            (layer.cellAt i j).tileId = ids.UNLOCKED_EXIT) →
          exits.count (arr [int i, int j]) = 1) := by
  obtain ⟨doc, hdoc⟩ := assemble_succeeds ids map hdeco
  have hval := (assemble_logic ids map doc hdoc).2.2.2.2
  rw [lastNamed_of_filter_singleton "logic" map.layers layer hsingle, Option.map_some',
    scanMarkers_eq, exit_filter_eq ids layer hd] at hval
  refine ⟨doc, hdoc, _, hval, ?_, ?_, ?_⟩
  · rw [List.length_map, exit_length, hN]
  · intro e he
    simp only [List.mem_map, List.mem_filter, mem_scanOrder, isExit, decide_eq_true_eq] at he
    obtain ⟨⟨i, j⟩, ⟨⟨hi, hj⟩, hc⟩, rfl⟩ := he
    exact ⟨i, j, rfl, hi, hj, hc⟩
  · intro i hi j hj hc
    apply List.count_eq_one_of_mem
    · exact ((scanOrder_nodup layer).filter _).map arr_coords_injective
    · simp only [List.mem_map, List.mem_filter, mem_scanOrder, isExit, decide_eq_true_eq]
      exact ⟨(i, j), ⟨⟨hi, hj⟩, hc⟩, rfl⟩

/-- Witness of C3: the sample "logic" layer has two cells of the EXIT family. -/
theorem multiexit_positions_witness :
    ∃ doc, assemble sampleIds ⟨[sampleLogic]⟩ = .ok doc ∧
      ∃ exits : List JsonValue,
        doc.value "multiexit" = some (arr exits) ∧
        exits.length = 2 ∧
        (∀ e ∈ exits, ∃ i j : Nat, e = arr [int i, int j] ∧
          i < sampleLogic.width.toNat ∧ j < sampleLogic.height.toNat ∧
          ((sampleLogic.cellAt i j).tileId = sampleIds.EXIT ∨
            (sampleLogic.cellAt i j).tileId = sampleIds.LOCKED_EXIT ∨
            (sampleLogic.cellAt i j).tileId = sampleIds.UNLOCKED_EXIT)) ∧
        (∀ i : Nat, i < sampleLogic.width.toNat → ∀ j : Nat, j < sampleLogic.height.toNat →
          ((sampleLogic.cellAt i j).tileId = sampleIds.EXIT ∨
            (sampleLogic.cellAt i j).tileId = sampleIds.LOCKED_EXIT ∨
            (sampleLogic.cellAt i j).tileId = sampleIds.UNLOCKED_EXIT) →
          exits.count (arr [int i, int j]) = 1) :=
  multiexit_positions sampleIds (by decide) ⟨[sampleLogic]⟩ sampleLogic 2 rfl
    (by decide) (by decide)

/-- Counterexample to C7 as stated: the layer `twoEntrances` has two ENTRANCE
cells, and "entrance" holds both pairs, `[0, 1, 1, 0]`, not the single pair
`[1, 0]` of the ENTRANCE cell met last. -/
theorem entrance_last_wins_counterexample :
    entranceCount sampleIds twoEntrances = 2 ∧
    ∃ doc, assemble sampleIds ⟨[twoEntrances]⟩ = .ok doc ∧
      doc.value "entrance" = some (arr [int 0, int 1, int 1, int 0]) ∧
      doc.value "entrance" ≠ some (arr [int 1, int 0]) ∧
      ¬ ∃ x y : Int, doc.value "entrance" = some (arr [int x, int y]) := by
  refine ⟨by decide, _, rfl, by decide, by decide, ?_⟩
  rintro ⟨x, y, h⟩
  have h' : (arr [int 0, int 1, int 1, int 0]) = arr [int x, int y] := Option.some.inj h
  simp at h'

/-- C7, amended: for a map (whose document is assembled) whose last "logic"
layer holds `k >= 2` ENTRANCE cells, "entrance" keeps the pair of every
ENTRANCE cell: it is a flat list of `2 * k` integers, the pairs of the
earlier matches (at least one) followed by the pair `[x, y]` of the ENTRANCE
cell met last by the scan. -/
theorem entrance_keeps_all (ids : TileId) (map : Map) (pre post : List Layer) (layer : Layer)
    (k : Nat)
    (hsplit : map.layers = pre ++ layer :: post) (hname : layer.name = "logic")
    (hpost : ∀ l ∈ post, l.name ≠ "logic")
    (hdeco : ∀ l ∈ map.layers, l.name = "deco" → l.usedTilesets.length = 1)
    (hk : entranceCount ids layer = k) (h2 : 2 ≤ k) :
    ∃ doc, assemble ids map = .ok doc ∧
      ∃ (earlier : List (Nat × Nat)) (x y : Nat),
        doc.value "entrance" =
          some (arr (earlier.flatMap (fun p => [int p.1, int p.2]) ++ [int x, int y])) ∧
        (earlier.flatMap (fun p => [int p.1, int p.2]) ++ [int x, int y]).length = 2 * k ∧
        earlier.length = k - 1 ∧
        (∀ i j : Nat, (i, j) ∈ earlier ++ [(x, y)] ↔
          i < layer.width.toNat ∧ j < layer.height.toNat ∧
            (layer.cellAt i j).tileId = ids.ENTRANCE) ∧
        (earlier ++ [(x, y)]).Pairwise (fun p q => p.1 < q.1 ∨ (p.1 = q.1 ∧ p.2 < q.2)) := by
  obtain ⟨doc, hdoc⟩ := assemble_succeeds ids map hdeco
  have hval := (assemble_logic ids map doc hdoc).2.2.2.1
  rw [lastNamed_of_split "logic" map.layers pre post layer hsplit hname hpost, Option.map_some',
    scanMarkers_eq] at hval
  have hlen := entrance_length ids layer
  rw [hk] at hlen
  have hmem : ∀ i j : Nat, (i, j) ∈ (scanOrder layer).filter (isEntrance ids layer) ↔
      i < layer.width.toNat ∧ j < layer.height.toNat ∧
        (layer.cellAt i j).tileId = ids.ENTRANCE := by
    intro i j
    simp [List.mem_filter, mem_scanOrder, isEntrance, and_assoc]
  have hpw := (scanOrder_pairwise layer).filter (isEntrance ids layer)
  have hflat := coords_length ((scanOrder layer).filter (isEntrance ids layer))
  have hne : (scanOrder layer).filter (isEntrance ids layer) ≠ [] := by
    intro h0
    rw [h0] at hlen
    simp at hlen
    omega
  obtain ⟨earlier, ⟨x, y⟩, hps⟩ :
      ∃ earlier last, (scanOrder layer).filter (isEntrance ids layer) = earlier ++ [last] :=
    ⟨_, _, (List.dropLast_append_getLast hne).symm⟩
  rw [hps] at hval hlen hmem hpw hflat
  refine ⟨doc, hdoc, earlier, x, y, ?_, ?_, ?_, hmem, hpw⟩
  · rw [hval, List.flatMap_append]
    simp [coords]
    rfl
  · rw [List.flatMap_append] at hflat
    simp only [List.flatMap_cons, List.flatMap_nil, List.append_nil, coords, hlen] at hflat
    exact hflat
  · simp at hlen
    omega

/-- Witness of the amended C7 on the map with two "logic" layers, whose last
"logic" layer has two ENTRANCE cells. -/
theorem entrance_keeps_all_witness :
    ∃ doc, assemble sampleIds twoLogicMap = .ok doc ∧
      ∃ (earlier : List (Nat × Nat)) (x y : Nat),
        doc.value "entrance" =
          some (arr (earlier.flatMap (fun p => [int p.1, int p.2]) ++ [int x, int y])) ∧
        (earlier.flatMap (fun p => [int p.1, int p.2]) ++ [int x, int y]).length = 2 * 2 ∧
        earlier.length = 2 - 1 ∧
        (∀ i j : Nat, (i, j) ∈ earlier ++ [(x, y)] ↔
          i < twoEntrances.width.toNat ∧ j < twoEntrances.height.toNat ∧
            (twoEntrances.cellAt i j).tileId = sampleIds.ENTRANCE) ∧
        (earlier ++ [(x, y)]).Pairwise (fun p q => p.1 < q.1 ∨ (p.1 = q.1 ∧ p.2 < q.2)) :=
  entrance_keeps_all sampleIds twoLogicMap [sampleLogic, sampleBase] [] twoEntrances 2 rfl rfl
    (by decide) (by decide) (by decide) (by decide)

/-- C10: in a map whose document is assembled, the last layer of a reserved
name alone decides the keys of that name.  With the last "logic" layer `L`,
the keys "width", "height", "map", "entrance" and "multiexit" hold what the
map made of `L` alone yields (the size, the cells and the markers of `L`, none
of an earlier "logic" layer); "baseTileVar" holds what the last "base" layer
alone yields; and without a "logic" layer those five keys are absent. -/
theorem last_layer_wins (ids : TileId) (map : Map)
    (hdeco : ∀ l ∈ map.layers, l.name = "deco" → l.usedTilesets.length = 1) :
    ∃ doc, assemble ids map = .ok doc ∧
      (∀ (pre post : List Layer) (L : Layer), map.layers = pre ++ L :: post →
        L.name = "logic" → (∀ l ∈ post, l.name ≠ "logic") →
        ∃ alone, assemble ids ⟨[L]⟩ = .ok alone ∧
          (∀ key ∈ ["width", "height", "map", "entrance", "multiexit"],
            doc.value key = alone.value key) ∧
          doc.value "width" = some (int L.width) ∧
          doc.value "height" = some (int L.height) ∧
          doc.value "map" = some (arr (packMapData L)) ∧
          doc.value "entrance" = some (arr (scanMarkers ids L).1) ∧
          doc.value "multiexit" = some (arr (scanMarkers ids L).2)) ∧
      (∀ (pre post : List Layer) (B : Layer), map.layers = pre ++ B :: post →
        B.name = "base" → (∀ l ∈ post, l.name ≠ "base") →
        ∃ alone, assemble ids ⟨[B]⟩ = .ok alone ∧
          doc.value "baseTileVar" = alone.value "baseTileVar" ∧
          doc.value "baseTileVar" = some (arr (packMapData B))) ∧
      ((∀ l ∈ map.layers, l.name ≠ "logic") →
        ∀ key ∈ ["width", "height", "map", "entrance", "multiexit"],
          doc.value key = none) := by
  obtain ⟨doc, hdoc⟩ := assemble_succeeds ids map hdeco
  obtain ⟨hw, hh, hm, he, hx⟩ := assemble_logic ids map doc hdoc
  refine ⟨doc, hdoc, ?_, ?_, ?_⟩
  · intro pre post L hsplit hname hpost
    have hlast := lastNamed_of_split "logic" map.layers pre post L hsplit hname hpost
    rw [hlast, Option.map_some'] at hw hh hm he hx
    obtain ⟨alone, halone⟩ := assemble_succeeds ids ⟨[L]⟩ (by
      intro l hl hn
      rw [List.mem_singleton.mp hl, hname] at hn
      exact absurd hn (by decide))
    obtain ⟨aw, ah, am, ae, ax⟩ := assemble_logic ids ⟨[L]⟩ alone halone
    have hone : lastNamed "logic" [L] = some L :=
      lastNamed_of_split "logic" [L] [] [] L rfl hname (by simp)
    rw [hone, Option.map_some'] at aw ah am ae ax
    refine ⟨alone, halone, ?_, hw, hh, hm, he, hx⟩
    intro key hkey
    simp only [List.mem_cons, List.mem_singleton, List.not_mem_nil, or_false] at hkey
    rcases hkey with rfl | rfl | rfl | rfl | rfl
    · rw [hw, aw]
    · rw [hh, ah]
    · rw [hm, am]
    · rw [he, ae]
    · rw [hx, ax]
  · intro pre post B hsplit hname hpost
    have hlast := lastNamed_of_split "base" map.layers pre post B hsplit hname hpost
    have hb := assemble_value ids "baseTileVar" "base" _ (step_baseTileVar ids) (by decide)
      (by decide) map doc hdoc
    rw [hlast, Option.map_some'] at hb
    obtain ⟨alone, halone⟩ := assemble_succeeds ids ⟨[B]⟩ (by
      intro l hl hn
      rw [List.mem_singleton.mp hl, hname] at hn
      exact absurd hn (by decide))
    have ab := assemble_value ids "baseTileVar" "base" _ (step_baseTileVar ids) (by decide)
      (by decide) ⟨[B]⟩ alone halone
    have hone : lastNamed "base" [B] = some B :=
      lastNamed_of_split "base" [B] [] [] B rfl hname (by simp)
    rw [hone, Option.map_some'] at ab
    exact ⟨alone, halone, by rw [hb, ab], hb⟩
  · intro hnone key hkey
    have hlast := lastNamed_none_of_forall "logic" map.layers hnone
    rw [hlast, Option.map_none'] at hw hh hm he hx
    simp only [List.mem_cons, List.mem_singleton, List.not_mem_nil, or_false] at hkey
    rcases hkey with rfl | rfl | rfl | rfl | rfl
    · exact hw
    · exact hh
    · exact hm
    · exact he
    · exact hx

/-- Witness of C10: in the map with two "logic" layers the keys hold what the
last one, `twoEntrances`, wrote, and "baseTileVar" the cells of the "base"
layer; the map made of the "base" layer alone has no "entrance". -/
theorem last_layer_wins_witness :
    (∃ doc, assemble sampleIds twoLogicMap = .ok doc ∧
      doc.value "width" = some (int 2) ∧
      doc.value "entrance" = some (arr [int 0, int 1, int 1, int 0]) ∧
      doc.value "multiexit" = some (arr [arr [int 1, int 1]]) ∧
      doc.value "baseTileVar" = some (arr [int 11, int 12])) ∧
    (∃ doc, assemble sampleIds ⟨[sampleBase]⟩ = .ok doc ∧ doc.value "entrance" = none) := by
  constructor
  · obtain ⟨doc, hdoc, hlogic, hbase, _⟩ := last_layer_wins sampleIds twoLogicMap (by decide)
    obtain ⟨_, _, _, hw, _, _, he, hx⟩ :=
      hlogic [sampleLogic, sampleBase] [] twoEntrances rfl rfl (by decide)
    obtain ⟨_, _, _, hb⟩ := hbase [sampleLogic] [twoEntrances] sampleBase rfl rfl (by decide)
    exact ⟨doc, hdoc, hw, he.trans (by decide), hx.trans (by decide), hb.trans (by decide)⟩
  · obtain ⟨doc, hdoc, _, _, hnone⟩ := last_layer_wins sampleIds ⟨[sampleBase]⟩ (by decide)
    exact ⟨doc, hdoc, hnone (by decide) "entrance" (by decide)⟩

/-- C4: with the save file open, let `d` be the first "deco" layer whose
number of used tilesets is not one.  If `d` uses no tileset, `write` returns
false and `errorString()` is "You have deco layer please fill it"; if it uses
two or more, `write` returns false and `errorString()` is "Only one tileset
per layer supported".  The two messages differ, and in both cases nothing is
staged, no commit is attempted and the destination is as before. -/
theorem deco_validation (self : RpdMapFormat) (ids : TileId)
    (stringify : JsonObject → Except String String) (dev : Device) (map : Map)
    (onDisk : Option String) (d : Layer) (hopen : dev.opens = true)
    (hfirst : map.layers.find?
      (fun l => decide (l.name = "deco" ∧ l.usedTilesets.length ≠ 1)) = some d) :
    (d.usedTilesets.length = 0 →
      (self.write ids stringify dev map onDisk).1 = false ∧
      (self.write ids stringify dev map onDisk).2.1.errorString =
        "You have deco layer please fill it") ∧
    (2 ≤ d.usedTilesets.length →
      (self.write ids stringify dev map onDisk).1 = false ∧
      (self.write ids stringify dev map onDisk).2.1.errorString =
        "Only one tileset per layer supported") ∧
    "You have deco layer please fill it" ≠ "Only one tileset per layer supported" ∧
    (self.write ids stringify dev map onDisk).2.2.staged = some "" ∧
    (self.write ids stringify dev map onDisk).2.2.commitAttempts = 0 ∧
    (self.write ids stringify dev map onDisk).2.2.committed = false ∧
    (self.write ids stringify dev map onDisk).2.2.destination = onDisk := by
  rw [write_of_assemble_error self ids stringify dev map onDisk _ hopen
    (assemble_fails ids map d hfirst)]
  refine ⟨?_, ?_, by decide, rfl, rfl, rfl, rfl⟩
  · intro h0
    simp [RpdMapFormat.errorString, decoError, h0]
  · intro h2
    have h0 : d.usedTilesets.length ≠ 0 := by omega
    simp [RpdMapFormat.errorString, decoError, h0]

/-- Witness of C4: a map whose first invalid "deco" layer is empty, and a map
whose first invalid "deco" layer uses two tilesets. -/
theorem deco_validation_witness :
    ((RpdMapFormat.mk "").write sampleIds sampleStringify goodDevice
        ⟨[sampleLogic, sampleDeco, emptyDeco, mixedDeco]⟩ (some "old")).1 = false ∧
    ((RpdMapFormat.mk "").write sampleIds sampleStringify goodDevice
        ⟨[sampleLogic, sampleDeco, emptyDeco, mixedDeco]⟩ (some "old")).2.1.errorString =
      "You have deco layer please fill it" ∧
    ((RpdMapFormat.mk "").write sampleIds sampleStringify goodDevice
        ⟨[mixedDeco, emptyDeco]⟩ (some "old")).1 = false ∧
    ((RpdMapFormat.mk "").write sampleIds sampleStringify goodDevice
        ⟨[mixedDeco, emptyDeco]⟩ (some "old")).2.1.errorString =
      "Only one tileset per layer supported" ∧
    ((RpdMapFormat.mk "").write sampleIds sampleStringify goodDevice
        ⟨[mixedDeco, emptyDeco]⟩ (some "old")).2.2.destination = some "old" :=
  have h1 := deco_validation (RpdMapFormat.mk "") sampleIds sampleStringify goodDevice
    ⟨[sampleLogic, sampleDeco, emptyDeco, mixedDeco]⟩ (some "old") emptyDeco rfl rfl
  have h2 := deco_validation (RpdMapFormat.mk "") sampleIds sampleStringify goodDevice
    ⟨[mixedDeco, emptyDeco]⟩ (some "old") mixedDeco rfl rfl
  ⟨(h1.1 rfl).1, (h1.1 rfl).2, (h2.2.1 (by decide)).1, (h2.2.1 (by decide)).2,
    h2.2.2.2.2.2.2⟩

/-- C5: for a map with a single layer named "deco", whose cells use exactly
one tileset, named `T`, the validation passes and the document has "tiles"
equal to `T` followed by ".png", "customTiles" equal to true, and
"decoTileVar" equal to the row-major list of the tile ids of that layer. -/
theorem deco_single_tileset (ids : TileId) (map : Map) (layer : Layer) (T : Tileset)
    (hsingle : map.layers.filter (fun l => decide (l.name = "deco")) = [layer])
    (hT : layer.usedTilesets = [T]) :
    ∃ doc, assemble ids map = .ok doc ∧
      doc.value "tiles" = some (str (T.name ++ ".png")) ∧
      doc.value "customTiles" = some (bool true) ∧
      ∃ cells : List JsonValue, doc.value "decoTileVar" = some (arr cells) ∧
        cells.length = layer.width.toNat * layer.height.toNat ∧
        ∀ i : Nat, i < layer.width.toNat → ∀ j : Nat, j < layer.height.toNat →
          cells[j * layer.width.toNat + i]? = some (int (layer.cellAt i j).tileId) := by
  have hdeco : ∀ l ∈ map.layers, l.name = "deco" → l.usedTilesets.length = 1 := by
    intro l hl hn
    have hm : l ∈ map.layers.filter (fun l => decide (l.name = "deco")) := by
      simp [List.mem_filter, hl, hn]
    rw [hsingle, List.mem_singleton] at hm
    rw [hm, hT]
    rfl
  obtain ⟨doc, hdoc⟩ := assemble_succeeds ids map hdeco
  have hlast := lastNamed_of_filter_singleton "deco" map.layers layer hsingle
  have ht := (assemble_tiles_water ids map doc hdoc).1
  have hc := assemble_value ids "customTiles" "deco" _ (step_customTiles ids) (by decide)
    (by decide) map doc hdoc
  have hv := assemble_value ids "decoTileVar" "deco" _ (step_decoTileVar ids) (by decide)
    (by decide) map doc hdoc
  rw [hlast] at ht
  rw [hlast, Option.map_some'] at hc hv
  refine ⟨doc, hdoc, ?_, hc, packMapData layer, hv, ?_, ?_⟩
  · rw [ht]
    simp [decoTiles, hT]
  · rw [packMapData_length, Nat.mul_comm]
  · intro i hi j hj
    exact packMapData_getElem? layer i j hi hj

/-- Witness of C5: the sample "deco" layer uses the tileset "tiles_caves". -/
theorem deco_single_tileset_witness :
    ∃ doc, assemble sampleIds ⟨[sampleDeco]⟩ = .ok doc ∧
      doc.value "tiles" = some (str ("tiles_caves" ++ ".png")) ∧
      doc.value "customTiles" = some (bool true) ∧
      ∃ cells : List JsonValue, doc.value "decoTileVar" = some (arr cells) ∧
        cells.length = sampleDeco.width.toNat * sampleDeco.height.toNat ∧
        ∀ i : Nat, i < sampleDeco.width.toNat → ∀ j : Nat, j < sampleDeco.height.toNat →
          cells[j * sampleDeco.width.toNat + i]? = some (int (sampleDeco.cellAt i j).tileId) :=
  deco_single_tileset sampleIds ⟨[sampleDeco]⟩ sampleDeco ⟨"tiles_caves"⟩ rfl rfl

/-- C6: for a map with no layer named "deco" the document is assembled and
has "tiles" equal to the fallback "tiles0_x.png"; and every document that is
assembled has "water" equal to "water0.png" and has a "tiles" entry. -/
theorem tiles_water_defaults (ids : TileId) (map : Map) :
    ((∀ l ∈ map.layers, l.name ≠ "deco") →
      ∃ doc, assemble ids map = .ok doc ∧ doc.value "tiles" = some (str "tiles0_x.png")) ∧
    (∀ doc, assemble ids map = .ok doc →
      doc.value "water" = some (str "water0.png") ∧ doc.contains "water" = true ∧
      doc.contains "tiles" = true) := by
  constructor
  · intro hno
    obtain ⟨doc, hdoc⟩ := assemble_succeeds ids map (fun l hl hn => absurd hn (hno l hl))
    have ht := (assemble_tiles_water ids map doc hdoc).1
    rw [lastNamed_none_of_forall "deco" map.layers hno] at ht
    exact ⟨doc, hdoc, ht⟩
  · intro doc hdoc
    obtain ⟨ht, hw⟩ := assemble_tiles_water ids map doc hdoc
    refine ⟨hw, ?_, ?_⟩
    · simp [JsonObject.contains, hw]
    · simp [JsonObject.contains, ht]

/-- Witness of C6: a map without a "deco" layer gets the fallback, and the
document of a map with a valid "deco" layer has "water" and "tiles". -/
theorem tiles_water_defaults_witness :
    (∃ doc, assemble sampleIds twoLogicMap = .ok doc ∧
      doc.value "tiles" = some (str "tiles0_x.png")) ∧
    (∃ doc, assemble sampleIds ⟨[sampleLogic, sampleDeco]⟩ = .ok doc ∧
      doc.value "water" = some (str "water0.png") ∧ doc.contains "water" = true ∧
      doc.contains "tiles" = true) :=
  ⟨(tiles_water_defaults sampleIds twoLogicMap).1 (by decide),
   ⟨_, rfl, (tiles_water_defaults sampleIds ⟨[sampleLogic, sampleDeco]⟩).2 _ rfl⟩⟩

/-- C8: whenever `write` returns false the destination file holds what it
held before the call and no commit has succeeded; `commit` is attempted at
most once, and only after the save file opened, the document was assembled
and serialized, and its text was staged without a device error; `write`
returns true exactly when none of the five failures (open, validation,
serialization, device, commit) occurs, and then the destination holds the
staged text. -/
theorem write_failure_keeps_destination (self : RpdMapFormat) (ids : TileId)
    (stringify : JsonObject → Except String String) (dev : Device) (map : Map)
    (onDisk : Option String) :
    ((self.write ids stringify dev map onDisk).1 = false →
      (self.write ids stringify dev map onDisk).2.2.destination = onDisk ∧
      (self.write ids stringify dev map onDisk).2.2.committed = false) ∧
    ((self.write ids stringify dev map onDisk).2.2.commitAttempts ≠ 0 →
      (self.write ids stringify dev map onDisk).2.2.commitAttempts = 1 ∧
      dev.opens = true ∧ dev.writeError = none ∧
      ∃ doc text, assemble ids map = .ok doc ∧ stringify doc = .ok text ∧
        (self.write ids stringify dev map onDisk).2.2.staged = some text) ∧
    ((self.write ids stringify dev map onDisk).1 = true ↔
      dev.opens = true ∧ dev.writeError = none ∧ dev.commitError = none ∧
      ∃ doc text, assemble ids map = .ok doc ∧ stringify doc = .ok text ∧
        (self.write ids stringify dev map onDisk).2.2.destination = some text) := by
  obtain ⟨opens, writeError, commitError⟩ := dev
  cases opens with
  | false => simp [RpdMapFormat.write, SaveFile.create, SaveFile.openDevice]
  | true =>
    cases ha : assemble ids map with
    | error e => simp [RpdMapFormat.write, SaveFile.create, SaveFile.openDevice, ha]
    | ok doc =>
      cases hs : stringify doc with
      | error e => simp [RpdMapFormat.write, SaveFile.create, SaveFile.openDevice, ha, hs]
      | ok text =>
        cases writeError with
        | some e =>
          simp [RpdMapFormat.write, SaveFile.create, SaveFile.openDevice, SaveFile.writeText,
            ha, hs]
        | none =>
          cases commitError with
          | some e =>
            simp [RpdMapFormat.write, SaveFile.create, SaveFile.openDevice, SaveFile.writeText,
              SaveFile.commit, ha, hs]
          | none =>
            simp [RpdMapFormat.write, SaveFile.create, SaveFile.openDevice, SaveFile.writeText,
              SaveFile.commit, ha, hs]

/-- Witness of C8: a failing open and a failing commit leave the destination
"old" in place; the commit was attempted in the second case only. -/
theorem write_failure_keeps_destination_witness :
    (((RpdMapFormat.mk "").write sampleIds sampleStringify closedDevice twoLogicMap
        (some "old")).2.2.destination = some "old" ∧
      ((RpdMapFormat.mk "").write sampleIds sampleStringify closedDevice twoLogicMap
        (some "old")).2.2.committed = false) ∧
    (((RpdMapFormat.mk "").write sampleIds sampleStringify noCommitDevice twoLogicMap
        (some "old")).2.2.destination = some "old" ∧
      ((RpdMapFormat.mk "").write sampleIds sampleStringify noCommitDevice twoLogicMap
        (some "old")).2.2.committed = false) ∧
    ((RpdMapFormat.mk "").write sampleIds sampleStringify noCommitDevice twoLogicMap
        (some "old")).2.2.commitAttempts = 1 ∧
    ((RpdMapFormat.mk "").write sampleIds sampleStringify goodDevice twoLogicMap
        (some "old")).1 = true :=
  ⟨(write_failure_keeps_destination (RpdMapFormat.mk "") sampleIds sampleStringify closedDevice
      twoLogicMap (some "old")).1 rfl,
   (write_failure_keeps_destination (RpdMapFormat.mk "") sampleIds sampleStringify
      noCommitDevice twoLogicMap (some "old")).1 rfl,
   ((write_failure_keeps_destination (RpdMapFormat.mk "") sampleIds sampleStringify
      noCommitDevice twoLogicMap (some "old")).2.1 (by decide)).1,
   (write_failure_keeps_destination (RpdMapFormat.mk "") sampleIds sampleStringify goodDevice
      twoLogicMap (some "old")).2.2.2 ⟨rfl, rfl, rfl, _, _, rfl, rfl, rfl⟩⟩

end Rpd
